import Mathlib

/-!
Shallow embedding of the account and key-custody subsystem of ape-starknet
(`src/ape_starknet/accounts/__init__.py`).  Pure data is translated directly;
file I/O is modelled as explicit registry state (the map from acctAlias to the
JSON credential file's content), and the interactive prompt collaborator is
modelled by passing the values it would return as explicit arguments.
-/

/-- Constant `LOCAL_NETWORK_NAME` imported from `ape.api.networks`. -/
def LOCAL_NETWORK_NAME : String := "local"

/-- Python's substring test `needle in haystack` on char lists: true when
`needle` occurs contiguously inside `haystack`. -/
def isSubListOf (needle : List Char) : List Char → Bool
  | [] => needle.isPrefixOf []
  | c :: rest => needle.isPrefixOf (c :: rest) || isSubListOf needle rest

/-- Python's `sub in s` for strings: `sub` occurs as a substring of `s`. -/
def strContains (s sub : String) : Bool :=
  isSubListOf sub.data s.data

/-- `_clean_network_name` (accounts/__init__.py lines 401-406): iterates over
`("local", "mainnet", "testnet")` and returns the first token occurring as a
substring of `network`, else returns `network` unchanged. -/
def _clean_network_name (network : String) : String :=
  if strContains network "local" then "local"
  else if strContains network "mainnet" then "mainnet"
  else if strContains network "testnet" then "testnet"
  else network

/-- Modelled from the spec: the external Credential Store collaborator
(`eth_keyfile.create_keyfile_json` / `decode_keyfile_json`, not part of this
repository) is specified only at its interface: decrypting with the
encrypting passphrase returns exactly the original private key, and any other
passphrase fails with an authentication error.  A record is represented by
the key it encrypts together with the passphrase it was encrypted under. -/
structure Crypto where
  encKey : Nat
  encPass : String
deriving DecidableEq, Repr

/-- Modelled from the spec: `create_keyfile_json(key, passphrase)`. -/
def encryptKey (privateKey : Nat) (passphrase : String) : Crypto :=
  ⟨privateKey, passphrase⟩

/-- Modelled from the spec: `decode_keyfile_json`; `none` is the MAC-mismatch
authentication failure. -/
def decryptCrypto (c : Crypto) (passphrase : String) : Option Nat :=
  if c.encPass = passphrase then some c.encKey else none

/-- Decryption through an optional crypto blob (missing blob cannot decrypt). -/
def decryptField (c : Option Crypto) (passphrase : String) : Option Nat :=
  match c with
  | none => none
  | some cr => decryptCrypto cr passphrase

/-- Modelled from the spec: the derived public identifier that
`create_keyfile_json` stores in its `address` field (renamed `public_key` by
`write`); an artifact of the encryption scheme, not the logical public key. -/
def keystoreAddress (privateKey : Nat) : Nat := privateKey

/-- Modelled from the spec: `KeyPair.from_private_key` (starknet_py
collaborator) derives the public key from a private key; only that it is a
function of the key matters to the properties below. -/
def publicKeyOf (privateKey : Nat) : Nat := privateKey

/-- `StarknetAccountDeployment` (lines 185-188): one deployment record. -/
structure Deployment where
  network_name : String
  contract_address : String
deriving DecidableEq, Repr

/-- Content of one credential JSON file.  The fields are the keys the code
reads or writes: the keystore blob (`crypto`/`id`/`version`, collapsed into
`crypto`), the renamed `public_key` field, and the `deployments` array.
`none` means the key is absent from the JSON object. -/
structure FileData where
  crypto : Option Crypto
  public_key : Option Nat
  deployments : Option (List Deployment)
deriving DecidableEq, Repr

/-- Python dict merge for one key: `{**a, **b}` keeps `b`'s value when the key
is present in `b`, else `a`'s. -/
def mergeField {α : Type} (a b : Option α) : Option α :=
  match b with
  | some v => some v
  | none => a

/-- Python dict merge `{**a, **b}` over the three keys of a credential file. -/
def mergeData (a b : FileData) : FileData :=
  ⟨mergeField a.crypto b.crypto, mergeField a.public_key b.public_key,
    mergeField a.deployments b.deployments⟩

/-- The empty JSON object `{}`. -/
def emptyFileData : FileData := ⟨none, none, none⟩

/-- `StarknetKeyfileAccount.get_account_data` (lines 309-313): the parsed file
content when the file exists, else `{}`. -/
def getAccountData (file : Option FileData) : FileData :=
  file.getD emptyFileData

namespace StarknetKeyfileAccount

/-- `StarknetKeyfileAccount.write` (lines 292-303).  `passphrase` is the value
resolved by the code (the argument, or the interactive new-passphrase prompt
when the argument is `None`), `privateKey` the key resolved by
`__encrypt_key_file`.  The result is the JSON written to the key file:
`{**key_file_data, **self.get_account_data(), **kwargs}` where
`key_file_data` is the fresh keystore blob with `address` renamed to
`public_key`, `self.get_account_data()` is the current on-disk content
(`existing`), and `kwargs` is the `deployments` argument when given. -/
def write (existing : Option FileData) (passphrase : String) (privateKey : Nat)
    (kwargsDeployments : Option (List Deployment)) : FileData :=
  mergeData
    (mergeData
      ⟨some (encryptKey privateKey passphrase), some (keystoreAddress privateKey), none⟩
      (getAccountData existing))
    ⟨none, none, kwargsDeployments⟩

/-- `StarknetKeyfileAccount.change_password` (lines 338-342): sets
`locked = True`, prompts for the original passphrase, resolves the private key
through `_get_key` (a decryption of the key file), then calls
`write(private_key=private_key)` with no passphrase argument, so `write`
prompts for the new passphrase.  `none` is the authentication failure on the
wrong original passphrase. -/
def change_password (file : FileData) (originalPassphrase newPassphrase : String) :
    Option FileData :=
  (decryptField file.crypto originalPassphrase).map fun privateKey =>
    write (some file) newPassphrase privateKey none

/-- `StarknetKeyfileAccount.add_deployment` (lines 344-356): prompts for the
passphrase, normalizes the network name, keeps the existing deployment records
whose `network_name` is not a substring of the normalized name
(`d.network_name not in network_name`), appends the new record, and rewrites
the key file through `write` with the resolved private key.  `none` when the
file has no `deployments` key (a `KeyError`) or decryption fails. -/
def add_deployment (file : FileData) (passphrase networkName contractAddress : String) :
    Option FileData :=
  file.deployments.bind fun ds =>
    (decryptField file.crypto passphrase).map fun privateKey =>
      write (some file) passphrase privateKey
        (some ((ds.filter fun d =>
            !(strContains (_clean_network_name networkName) d.network_name)) ++
          [⟨_clean_network_name networkName, contractAddress⟩]))

/-- `StarknetKeyfileAccount.delete` (lines 315-327): prompts for the
passphrase and decrypts the key file as an ownership check, keeps the records
whose `network_name` is not a substring of `network`
(`d.network_name not in network`), then either unlinks the file (result
`some none`) when no records remain or rewrites it with the reduced list
(result `some (some f)`).  Outer `none` is an authentication or missing-key
failure. -/
def delete (file : FileData) (passphrase network : String) : Option (Option FileData) :=
  (decryptField file.crypto passphrase).bind fun privateKey =>
    file.deployments.map fun ds =>
      if ds.filter (fun d => !(strContains network d.network_name)) = [] then none
      else some (write (some file) passphrase privateKey
        (some (ds.filter fun d => !(strContains network d.network_name))))

/-- Result of `_get_key`: the returned key, the account's lock state and key
cache afterwards, and which interactive prompts were actually invoked. -/
structure GetKeyResult where
  key : Nat
  locked : Bool
  cachedKey : Option Nat
  promptCalled : Bool
  confirmCalled : Bool
deriving DecidableEq, Repr

/-- Lines 366-377 of `_get_key`, after the cache check: if no passphrase
argument was given, one is obtained from the prompt collaborator
(`promptedPassphrase`) and assigned to the same local variable; the key file
is decrypted; then `if self.locked and (passphrase is not None or
click.confirm(...))` caches the key and unlocks.  `confirmAnswer` is what the
confirmation prompt would return; `confirmCalled` records whether the `or`'s
right operand is ever evaluated. -/
def _get_key_resolve (locked : Bool) (crypto : Option Crypto)
    (passphrase : Option String) (promptedPassphrase : String) (confirmAnswer : Bool) :
    Option GetKeyResult :=
  let promptCalled := passphrase.isNone
  let p : String :=
    match passphrase with
    | none => promptedPassphrase
    | some s => s
  let passphraseVar : Option String := some p
  match decryptField crypto p with
  | none => none
  | some key =>
      let confirmCalled := locked && passphraseVar.isNone
      if locked && (passphraseVar.isSome || confirmAnswer) then
        some ⟨key, false, some key, promptCalled, confirmCalled⟩
      else
        some ⟨key, locked, none, promptCalled, confirmCalled⟩

/-- `StarknetKeyfileAccount._get_key` (lines 358-377): a cached key is reused
when the account is unlocked, and discarded when present while locked; then
the passphrase is resolved and the key file decrypted as in
`_get_key_resolve`. -/
def _get_key (locked : Bool) (cachedKey : Option Nat) (crypto : Option Crypto)
    (passphrase : Option String) (promptedPassphrase : String) (confirmAnswer : Bool) :
    Option GetKeyResult :=
  match cachedKey with
  | some k =>
      if !locked then some ⟨k, locked, some k, false, false⟩
      else _get_key_resolve locked crypto passphrase promptedPassphrase confirmAnswer
  | none => _get_key_resolve locked crypto passphrase promptedPassphrase confirmAnswer

end StarknetKeyfileAccount

/-- Data of one ephemeral (local-network) account as stored in
`ephemeral_accounts` by `import_account` (lines 124-130). -/
structure EphemeralData where
  public_key : Nat
  private_key : Nat
  deployments : List Deployment
deriving DecidableEq, Repr

namespace BaseStarknetAccount

/-- Error taxonomy: the code raises `AccountsError` with distinct messages;
each distinct raise site is one constructor. -/
inductive AccountsError where
  | notFound
  | alreadyExists
  | notDeployed
  | authFailure
  | deployFailed
deriving DecidableEq, Repr

/-- `BaseStarknetAccount.contract_address` (lines 200-208): scans the
deployment records in order and returns the decoded contract address of the
first record whose `network_name` equals the current network's name
(`deployment.network_name == network.name`); raises when none matches.
`decode` is the network-identity collaborator's `decode_address`. -/
def contract_address (decode : String → String) (deployments : List Deployment)
    (networkName : String) : Except AccountsError String :=
  match deployments.find? (fun d => d.network_name == networkName) with
  | some d => Except.ok (decode d.contract_address)
  | none => Except.error AccountsError.notDeployed

end BaseStarknetAccount

open BaseStarknetAccount (AccountsError)

/-- Lookup in an association list keyed by strings (a Python dict, or the
set of key files in `data_folder` keyed by file stem). -/
def alistLookup {α : Type} : List (String × α) → String → Option α
  | [], _ => none
  | p :: rest, k => if p.1 = k then some p.2 else alistLookup rest k

/-- Python dict assignment `d[k] = v` (or overwriting the key file named
`k`): replaces the value at an existing key in place, else appends. -/
def alistInsert {α : Type} (k : String) (v : α) : List (String × α) → List (String × α)
  | [] => [(k, v)]
  | p :: rest => if p.1 = k then (k, v) :: rest else p :: alistInsert k v rest

/-- `StarknetAccountContracts` (lines 37-42): the registry's state — the
in-memory `ephemeral_accounts` dict, the credential files in `data_folder`
keyed by acctAlias (file stem), and the aliases present in `cached_accounts`
(each cached object only wraps the key-file path, so its data always reflects
the current file). -/
structure StarknetAccountContracts where
  ephemeral_accounts : List (String × EphemeralData)
  keyfiles : List (String × FileData)
  cached_accounts : List String
deriving DecidableEq, Repr

namespace StarknetAccountContracts

/-- `aliases` (lines 48-54): the ephemeral aliases followed by the key-file
stems. -/
def aliases (reg : StarknetAccountContracts) : List String :=
  reg.ephemeral_accounts.map Prod.fst ++ reg.keyfiles.map Prod.fst

/-- `__len__` (lines 69-70): the number of key files only. -/
def len (reg : StarknetAccountContracts) : Nat :=
  reg.keyfiles.length

/-- `load_key_file_account` (lines 93-103): a cached account is returned as
is; otherwise the key files are scanned by stem, the account is cached and
returned; else `AccountsError` (not found).  The returned string stands for
the loaded `StarknetKeyfileAccount` object (identified by its acctAlias/path). -/
def load_key_file_account (reg : StarknetAccountContracts) (acctAlias : String) :
    Except AccountsError (StarknetAccountContracts × String) :=
  if acctAlias ∈ reg.cached_accounts then Except.ok (reg, acctAlias)
  else if (alistLookup reg.keyfiles acctAlias).isSome then
    Except.ok ({ reg with cached_accounts := reg.cached_accounts ++ [acctAlias] }, acctAlias)
  else Except.error AccountsError.notFound

/-- `load` (lines 84-91): ephemeral accounts take precedence, then key-file
accounts. -/
def load (reg : StarknetAccountContracts) (acctAlias : String) :
    Except AccountsError (StarknetAccountContracts × String) :=
  if (alistLookup reg.ephemeral_accounts acctAlias).isSome then Except.ok (reg, acctAlias)
  else load_key_file_account reg acctAlias

/-- `import_account` (lines 105-135): normalizes the network name, builds the
single initial deployment record, and either stores an ephemeral account in
memory (local network) or writes a key file through
`StarknetKeyfileAccount.write` (whose `get_account_data` reads whatever file
already exists at that path).  `passphrase` is the value the new-passphrase
prompt returns inside `write`.  Note: there is no acctAlias-existence check. -/
def import_account (reg : StarknetAccountContracts)
    (acctAlias networkName contractAddress : String) (privateKey : Nat)
    (passphrase : String) : StarknetAccountContracts :=
  if _clean_network_name networkName = LOCAL_NETWORK_NAME then
    let entry : EphemeralData :=
      ⟨publicKeyOf privateKey, privateKey,
        [⟨_clean_network_name networkName, contractAddress⟩]⟩
    { reg with ephemeral_accounts := alistInsert acctAlias entry reg.ephemeral_accounts }
  else
    let newFile : FileData :=
      StarknetKeyfileAccount.write (alistLookup reg.keyfiles acctAlias) passphrase
        privateKey (some [⟨_clean_network_name networkName, contractAddress⟩])
    { reg with keyfiles := alistInsert acctAlias newFile reg.keyfiles }

/-- `deploy_account` (lines 137-174): raises when the acctAlias is already known;
otherwise submits the deployment through the transaction-submission
collaborator, whose receipt's optional contract address is
`receiptContractAddress` (`none` also covers the falsy empty value); raises
when it is absent; else imports the account for the current network
(`networkName`) at that address and returns the address. -/
def deploy_account (reg : StarknetAccountContracts) (networkName acctAlias : String)
    (privateKey : Nat) (receiptContractAddress : Option String) (passphrase : String) :
    Except AccountsError (String × StarknetAccountContracts) :=
  if acctAlias ∈ reg.aliases then Except.error AccountsError.alreadyExists
  else
    match receiptContractAddress with
    | none => Except.error AccountsError.deployFailed
    | some addr =>
        Except.ok (addr, import_account reg acctAlias networkName addr privateKey passphrase)

/-- `delete_account` (lines 176-182): removes an ephemeral account from the
in-memory dict, else loads the key-file account (caching it) and delegates to
`StarknetKeyfileAccount.delete`, applying the resulting file update. -/
def delete_account (reg : StarknetAccountContracts) (acctAlias network pass : String) :
    Except AccountsError StarknetAccountContracts :=
  if (alistLookup reg.ephemeral_accounts acctAlias).isSome then
    Except.ok { reg with ephemeral_accounts :=
      reg.ephemeral_accounts.filter fun p => !(p.1 == acctAlias) }
  else
    match load_key_file_account reg acctAlias with
    | Except.error e => Except.error e
    | Except.ok (reg1, _) =>
        match alistLookup reg1.keyfiles acctAlias with
        | none => Except.error AccountsError.notFound
        | some file =>
            match StarknetKeyfileAccount.delete file pass network with
            | none => Except.error AccountsError.authFailure
            | some none =>
                Except.ok { reg1 with keyfiles :=
                  reg1.keyfiles.filter fun p => !(p.1 == acctAlias) }
            | some (some f1) =>
                Except.ok { reg1 with keyfiles := alistInsert acctAlias f1 reg1.keyfiles }

end StarknetAccountContracts

/-! Helper lemmas. -/

/-- Every char list is a prefix of itself. -/
lemma isPrefixOf_self (l : List Char) : l.isPrefixOf l = true := by
  induction l with
  | nil => rfl
  | cons c rest ih => simp [List.isPrefixOf, ih]

/-- Every char list occurs inside itself. -/
lemma isSubListOf_self (l : List Char) : isSubListOf l l = true := by
  cases l with
  | nil => rfl
  | cons c rest => simp [isSubListOf, isPrefixOf_self]

/-- Every string is a substring of itself. -/
lemma strContains_self (s : String) : strContains s s = true :=
  isSubListOf_self s.data

/-- A record that survives the substring filter against `n` cannot be named
`n` itself, so a second filter looking for the exact name finds nothing. -/
lemma filter_contains_then_exact (n : String) (l : List Deployment) :
    (l.filter fun d => !(strContains n d.network_name)).filter
      (fun d => d.network_name == n) = [] := by
  induction l with
  | nil => rfl
  | cons d rest ih =>
      by_cases h : strContains n d.network_name = true
      · simp only [List.filter_cons, h, Bool.not_true, Bool.false_eq_true, if_false]
        exact ih
      · have hb : strContains n d.network_name = false := by
          cases hx : strContains n d.network_name
          · rfl
          · exact absurd hx h
        have hne : (d.network_name == n) = false := by
          rw [beq_eq_false_iff_ne]
          intro he
          rw [he] at hb
          rw [strContains_self n] at hb
          exact Bool.noConfusion hb
        simp only [List.filter_cons, hb, Bool.not_false, if_true, hne, Bool.false_eq_true,
          if_false]
        exact ih

/-- Looking up the key just inserted returns the inserted value. -/
lemma alistLookup_insert_self {α : Type} (k : String) (v : α) (l : List (String × α)) :
    alistLookup (alistInsert k v l) k = some v := by
  induction l with
  | nil => simp [alistInsert, alistLookup]
  | cons p rest ih =>
      by_cases h : p.1 = k
      · simp [alistInsert, alistLookup, h]
      · simp [alistInsert, alistLookup, h, ih]

/-- Removing every pair with key `k` makes lookup of `k` fail. -/
lemma alistLookup_filterOut {α : Type} (k : String) (l : List (String × α)) :
    alistLookup (l.filter fun p => !(p.1 == k)) k = none := by
  induction l with
  | nil => rfl
  | cons p rest ih =>
      by_cases h : p.1 = k
      · simp only [List.filter_cons, h, beq_self_eq_true, Bool.not_true, Bool.false_eq_true,
          if_false]
        exact ih
      · have hb : (p.1 == k) = false := beq_eq_false_iff_ne.mpr h
        simp only [List.filter_cons, hb, Bool.not_false, if_true, alistLookup, h, ih,
          if_false]

/-- When the key file exists, `load_key_file_account` succeeds, leaves the
files unchanged, and afterwards the alias is cached. -/
lemma load_key_file_account_found (reg : StarknetAccountContracts) (a : String)
    (h : (alistLookup reg.keyfiles a).isSome = true) :
    ∃ reg1, StarknetAccountContracts.load_key_file_account reg a = Except.ok (reg1, a) ∧
      reg1.keyfiles = reg.keyfiles ∧
      reg1.ephemeral_accounts = reg.ephemeral_accounts ∧
      a ∈ reg1.cached_accounts := by
  unfold StarknetAccountContracts.load_key_file_account
  by_cases hc : a ∈ reg.cached_accounts
  · exact ⟨reg, by simp [hc], rfl, rfl, hc⟩
  · refine ⟨{ reg with cached_accounts := reg.cached_accounts ++ [a] }, ?_, rfl, rfl, ?_⟩
    · simp [hc, h]
    · simp

/-! Claim theorems. -/

/-- C6: `_clean_network_name` returns one of the fixed tokens "local",
"mainnet", "testnet" whenever the input contains that token as a substring
(the result is a token the input contains), and returns the input unchanged
when it contains none of the three. -/
theorem clean_network_name_collapses_tokens (s : String) :
    ((strContains s "local" = true ∨ strContains s "mainnet" = true ∨
        strContains s "testnet" = true) →
      ((_clean_network_name s = "local" ∨ _clean_network_name s = "mainnet" ∨
          _clean_network_name s = "testnet") ∧
        strContains s (_clean_network_name s) = true)) ∧
    ((strContains s "local" = false ∧ strContains s "mainnet" = false ∧
        strContains s "testnet" = false) →
      _clean_network_name s = s) := by
  constructor
  · intro h
    unfold _clean_network_name
    by_cases h1 : strContains s "local" = true
    · simp [h1]
    · by_cases h2 : strContains s "mainnet" = true
      · simp [h1, h2]
      · by_cases h3 : strContains s "testnet" = true
        · simp [h1, h2, h3]
        · rcases h with h | h | h
          · exact absurd h h1
          · exact absurd h h2
          · exact absurd h h3
  · rintro ⟨h1, h2, h3⟩
    unfold _clean_network_name
    simp [h1, h2, h3]

/-- C6 witness: "testnet-fork" contains "testnet", so it collapses to one of
the tokens, which it contains. -/
theorem clean_network_name_collapses_tokens_witness :
    (_clean_network_name "testnet-fork" = "local" ∨
      _clean_network_name "testnet-fork" = "mainnet" ∨
      _clean_network_name "testnet-fork" = "testnet") ∧
    strContains "testnet-fork" (_clean_network_name "testnet-fork") = true :=
  (clean_network_name_collapses_tokens "testnet-fork").1 (by decide)

/-- C2 (code bug): on a key file encrypted under passphrase "a" holding
private key 5, `change_password` with original "a" and new "b" writes back
the file unchanged — `write`'s merge lets the old on-disk record override the
freshly encrypted blob — so the result still decrypts under "a" and fails to
decrypt under the new passphrase "b", contradicting the claim. -/
theorem change_password_keeps_old_ciphertext :
    StarknetKeyfileAccount.change_password
        ⟨some ⟨5, "a"⟩, some 5, some [⟨"testnet", "0xAB"⟩]⟩ "a" "b" =
      some ⟨some ⟨5, "a"⟩, some 5, some [⟨"testnet", "0xAB"⟩]⟩ ∧
    decryptField (some (⟨5, "a"⟩ : Crypto)) "b" = none ∧
    decryptField (some (⟨5, "a"⟩ : Crypto)) "a" = some 5 := by
  refine ⟨by decide, by decide, by decide⟩

/-- C7 (code bug): `_get_key` reassigns the `passphrase` local before testing
`passphrase is not None`, so the test is always true and `click.confirm` is
never evaluated.  First conjunct: with a programmatic passphrase the key is
cached without prompting (as the claim says).  Second conjunct: with no
programmatic passphrase and a confirmation collaborator that would answer
"no" (`false`), the key is still cached and the account unlocked, and the
confirmation prompt is never invoked (`confirmCalled = false`), contradicting
the claim that the confirmation decides. -/
theorem get_key_confirmation_never_invoked :
    StarknetKeyfileAccount._get_key true none (some ⟨5, "p"⟩) (some "p") "x" false =
      some ⟨5, false, some 5, false, false⟩ ∧
    StarknetKeyfileAccount._get_key true none (some ⟨5, "p"⟩) none "p" false =
      some ⟨5, false, some 5, true, false⟩ := by
  refine ⟨by decide, by decide⟩

/-- C9: when the normalized network name is the local network,
`import_account` only updates the in-memory ephemeral namespace: the set of
credential files (and the cache) is identical before and after, and the
ephemeral map gains exactly the new account under the alias. -/
theorem import_account_local_is_ephemeral_only (reg : StarknetAccountContracts)
    (a net addr : String) (key : Nat) (pass : String)
    (h : _clean_network_name net = LOCAL_NETWORK_NAME) :
    (StarknetAccountContracts.import_account reg a net addr key pass).keyfiles =
      reg.keyfiles ∧
    (StarknetAccountContracts.import_account reg a net addr key pass).cached_accounts =
      reg.cached_accounts ∧
    (StarknetAccountContracts.import_account reg a net addr key pass).ephemeral_accounts =
      alistInsert a ⟨publicKeyOf key, key, [⟨_clean_network_name net, addr⟩]⟩
        reg.ephemeral_accounts := by
  unfold StarknetAccountContracts.import_account
  simp [h]

/-- C9 witness: importing under network "local" into the empty registry. -/
theorem import_account_local_is_ephemeral_only_witness :
    (StarknetAccountContracts.import_account ⟨[], [], []⟩ "bob" "local" "0x2" 9 "pw").keyfiles =
      (⟨[], [], []⟩ : StarknetAccountContracts).keyfiles ∧
    (StarknetAccountContracts.import_account ⟨[], [], []⟩ "bob" "local" "0x2" 9 "pw").cached_accounts =
      (⟨[], [], []⟩ : StarknetAccountContracts).cached_accounts ∧
    (StarknetAccountContracts.import_account ⟨[], [], []⟩ "bob" "local" "0x2" 9 "pw").ephemeral_accounts =
      alistInsert "bob" ⟨publicKeyOf 9, 9, [⟨_clean_network_name "local", "0x2"⟩]⟩
        (⟨[], [], []⟩ : StarknetAccountContracts).ephemeral_accounts :=
  import_account_local_is_ephemeral_only ⟨[], [], []⟩ "bob" "local" "0x2" 9 "pw" (by decide)

/-- C10: the registry's length counts only key-file (persisted) accounts, the
alias listing yields the ephemeral aliases followed by the persisted aliases,
and when at least one ephemeral account exists the length is strictly smaller
than the number of enumerated aliases. -/
theorem len_counts_only_keyfile_accounts (reg : StarknetAccountContracts)
    (h : reg.ephemeral_accounts ≠ []) :
    StarknetAccountContracts.len reg = reg.keyfiles.length ∧
    StarknetAccountContracts.aliases reg =
      reg.ephemeral_accounts.map Prod.fst ++ reg.keyfiles.map Prod.fst ∧
    StarknetAccountContracts.len reg < (StarknetAccountContracts.aliases reg).length := by
  refine ⟨rfl, rfl, ?_⟩
  have hpos : 0 < reg.ephemeral_accounts.length := List.length_pos.mpr h
  simp only [StarknetAccountContracts.len, StarknetAccountContracts.aliases,
    List.length_append, List.length_map]
  omega

/-- C10 witness: a registry holding one ephemeral and one persisted account. -/
theorem len_counts_only_keyfile_accounts_witness :
    StarknetAccountContracts.len ⟨[("eph", ⟨1, 1, []⟩)], [("bob", emptyFileData)], []⟩ =
      [("bob", emptyFileData)].length ∧
    StarknetAccountContracts.aliases ⟨[("eph", ⟨1, 1, []⟩)], [("bob", emptyFileData)], []⟩ =
      [("eph", (⟨1, 1, []⟩ : EphemeralData))].map Prod.fst ++
        [("bob", emptyFileData)].map Prod.fst ∧
    StarknetAccountContracts.len ⟨[("eph", ⟨1, 1, []⟩)], [("bob", emptyFileData)], []⟩ <
      (StarknetAccountContracts.aliases
        ⟨[("eph", ⟨1, 1, []⟩)], [("bob", emptyFileData)], []⟩).length :=
  len_counts_only_keyfile_accounts ⟨[("eph", ⟨1, 1, []⟩)], [("bob", emptyFileData)], []⟩
    (by decide)

/-- C8: `deploy_account` fails with an already-exists error when the alias is
among the registry's aliases; fails with a deployment failure when the
receipt carries no contract address; and otherwise imports the account under
the alias for the current network at the receipt's contract address and
returns that address. -/
theorem deploy_account_spec (reg : StarknetAccountContracts) (net a : String)
    (key : Nat) (receiptAddr : Option String) (pass : String) :
    (a ∈ StarknetAccountContracts.aliases reg →
      StarknetAccountContracts.deploy_account reg net a key receiptAddr pass =
        Except.error AccountsError.alreadyExists) ∧
    (a ∉ StarknetAccountContracts.aliases reg → receiptAddr = none →
      StarknetAccountContracts.deploy_account reg net a key receiptAddr pass =
        Except.error AccountsError.deployFailed) ∧
    (∀ addr, a ∉ StarknetAccountContracts.aliases reg → receiptAddr = some addr →
      StarknetAccountContracts.deploy_account reg net a key receiptAddr pass =
        Except.ok (addr, StarknetAccountContracts.import_account reg a net addr key pass)) := by
  refine ⟨?_, ?_, ?_⟩
  · intro h
    unfold StarknetAccountContracts.deploy_account
    simp [h]
  · intro h hr
    unfold StarknetAccountContracts.deploy_account
    simp [h, hr]
  · intro addr h hr
    unfold StarknetAccountContracts.deploy_account
    simp [h, hr]

/-- C8 witness: deploying "carol" into the empty registry with a receipt
carrying contract address "0xCD" imports and returns that address. -/
theorem deploy_account_spec_witness :
    StarknetAccountContracts.deploy_account ⟨[], [], []⟩ "testnet" "carol" 1
        (some "0xCD") "pw" =
      Except.ok ("0xCD",
        StarknetAccountContracts.import_account ⟨[], [], []⟩ "carol" "testnet" "0xCD" 1 "pw") :=
  (deploy_account_spec ⟨[], [], []⟩ "testnet" "carol" 1 (some "0xCD") "pw").2.2 "0xCD"
    (by decide) rfl

/-- C1: after `add_deployment(net, a)` followed by `add_deployment(net, b)`
on the same key-file account, the deployment list stored in the credential
file contains exactly one record whose `network_name` is the normalized form
of `net`, and that record's `contract_address` is `b`. -/
theorem add_deployment_twice_unique (file f1 f2 : FileData) (p net a b : String)
    (_h1 : StarknetKeyfileAccount.add_deployment file p net a = some f1)
    (h2 : StarknetKeyfileAccount.add_deployment f1 p net b = some f2) :
    ∃ L, f2.deployments = some L ∧
      L.filter (fun d => d.network_name == _clean_network_name net) =
        [⟨_clean_network_name net, b⟩] := by
  rw [StarknetKeyfileAccount.add_deployment, Option.bind_eq_some] at h2
  obtain ⟨ds2, hds2, h2'⟩ := h2
  rw [Option.map_eq_some'] at h2'
  obtain ⟨k2, hk2, hf2⟩ := h2'
  refine ⟨(ds2.filter fun d =>
      !(strContains (_clean_network_name net) d.network_name)) ++
    [⟨_clean_network_name net, b⟩], ?_, ?_⟩
  · rw [← hf2]
    rfl
  · rw [List.filter_append, filter_contains_then_exact]
    simp [List.filter]

/-- C1 witness: two `add_deployment` calls for "testnet" on a concrete file. -/
theorem add_deployment_twice_unique_witness :
    ∃ L, (⟨some ⟨5, "p"⟩, some 5,
        some [⟨"testnet", "0x2"⟩]⟩ : FileData).deployments = some L ∧
      L.filter (fun d => d.network_name == _clean_network_name "testnet") =
        [⟨_clean_network_name "testnet", "0x2"⟩] :=
  add_deployment_twice_unique ⟨some ⟨5, "p"⟩, some 5, some []⟩
    ⟨some ⟨5, "p"⟩, some 5, some [⟨"testnet", "0x1"⟩]⟩
    ⟨some ⟨5, "p"⟩, some 5, some [⟨"testnet", "0x2"⟩]⟩ "p" "testnet" "0x1" "0x2"
    (by decide) (by decide)

/-- C3 counterexample: importing an alias that already exists in the
ephemeral namespace does not fail and does not leave the registry unchanged —
the existing entry is silently overwritten. -/
theorem import_account_overwrites_existing_alias :
    StarknetAccountContracts.import_account
        ⟨[("bob", ⟨7, 7, [⟨"local", "0x1"⟩]⟩)], [], []⟩ "bob" "local" "0x2" 9 "pw" ≠
      ⟨[("bob", ⟨7, 7, [⟨"local", "0x1"⟩]⟩)], [], []⟩ := by
  decide

/-- C3 amended: `import_account` performs no alias-existence check: for every
registry state — including one where the alias is already present in either
namespace — the call succeeds, binding the alias to the new account data
(replacing any previous binding): in the ephemeral map for a local-normalized
network, else in the credential-file map. -/
theorem import_account_no_alias_check (reg : StarknetAccountContracts)
    (a net addr : String) (key : Nat) (pass : String) :
    (_clean_network_name net = LOCAL_NETWORK_NAME →
      alistLookup (StarknetAccountContracts.import_account
          reg a net addr key pass).ephemeral_accounts a =
        some ⟨publicKeyOf key, key, [⟨_clean_network_name net, addr⟩]⟩ ∧
      (StarknetAccountContracts.import_account reg a net addr key pass).keyfiles =
        reg.keyfiles) ∧
    (_clean_network_name net ≠ LOCAL_NETWORK_NAME →
      alistLookup (StarknetAccountContracts.import_account
          reg a net addr key pass).keyfiles a =
        some (StarknetKeyfileAccount.write (alistLookup reg.keyfiles a) pass key
          (some [⟨_clean_network_name net, addr⟩])) ∧
      (StarknetAccountContracts.import_account reg a net addr key pass).ephemeral_accounts =
        reg.ephemeral_accounts) := by
  constructor
  · intro h
    unfold StarknetAccountContracts.import_account
    simp [h, alistLookup_insert_self]
  · intro h
    unfold StarknetAccountContracts.import_account
    simp [h, alistLookup_insert_self]

/-- C3 witness: overwriting the ephemeral entry "bob". -/
theorem import_account_no_alias_check_witness :
    alistLookup (StarknetAccountContracts.import_account
        ⟨[("bob", ⟨7, 7, [⟨"local", "0x1"⟩]⟩)], [], []⟩
        "bob" "local" "0x2" 9 "pw").ephemeral_accounts "bob" =
      some ⟨publicKeyOf 9, 9, [⟨_clean_network_name "local", "0x2"⟩]⟩ ∧
    (StarknetAccountContracts.import_account
        ⟨[("bob", ⟨7, 7, [⟨"local", "0x1"⟩]⟩)], [], []⟩
        "bob" "local" "0x2" 9 "pw").keyfiles =
      (⟨[("bob", ⟨7, 7, [⟨"local", "0x1"⟩]⟩)], [],
        []⟩ : StarknetAccountContracts).keyfiles :=
  (import_account_no_alias_check ⟨[("bob", ⟨7, 7, [⟨"local", "0x1"⟩]⟩)], [], []⟩
    "bob" "local" "0x2" 9 "pw").1 (by decide)

/-- C4: `contract_address` returns the decoded contract address of a
deployment record whose `network_name` equals the current network's name when
one exists, and fails with the not-deployed error when none does; and in the
concrete scenario, importing "bob" with one "testnet" deployment at "0xAB"
gives a file on which `contract_address` succeeds for "testnet" with "0xAB"
and fails for "mainnet". -/
theorem contract_address_spec (decode : String → String) (ds : List Deployment)
    (net : String) :
    ((∃ d ∈ ds, d.network_name = net) →
      ∃ d ∈ ds, d.network_name = net ∧
        BaseStarknetAccount.contract_address decode ds net =
          Except.ok (decode d.contract_address)) ∧
    ((∀ d ∈ ds, d.network_name ≠ net) →
      BaseStarknetAccount.contract_address decode ds net =
        Except.error AccountsError.notDeployed) ∧
    (∃ f, alistLookup (StarknetAccountContracts.import_account
        ⟨[], [], []⟩ "bob" "testnet" "0xAB" 1 "pw").keyfiles "bob" = some f ∧
      ∃ ds0, f.deployments = some ds0 ∧
        BaseStarknetAccount.contract_address (fun x => x) ds0 "testnet" =
          Except.ok "0xAB" ∧
        BaseStarknetAccount.contract_address (fun x => x) ds0 "mainnet" =
          Except.error AccountsError.notDeployed) := by
  refine ⟨?_, ?_, ?_⟩
  · rintro ⟨d, hd, hn⟩
    have hs : (ds.find? fun x => x.network_name == net).isSome = true := by
      rw [List.find?_isSome]
      exact ⟨d, hd, by simp [hn]⟩
    obtain ⟨d1, hfind⟩ := Option.isSome_iff_exists.mp hs
    have hp := List.find?_some hfind
    have hmem := List.mem_of_find?_eq_some hfind
    refine ⟨d1, hmem, by simpa using hp, ?_⟩
    unfold BaseStarknetAccount.contract_address
    rw [hfind]
  · intro h
    have hnone : ds.find? (fun x => x.network_name == net) = none := by
      rw [List.find?_eq_none]
      intro x hx
      simpa using h x hx
    unfold BaseStarknetAccount.contract_address
    rw [hnone]
  · refine ⟨⟨some ⟨1, "pw"⟩, some 1, some [⟨"testnet", "0xAB"⟩]⟩, by decide,
      [⟨"testnet", "0xAB"⟩], by decide, rfl, rfl⟩

/-- C4 witness: the lookup branch applied at one "testnet" record. -/
theorem contract_address_spec_witness :
    ∃ d ∈ [(⟨"testnet", "0xAB"⟩ : Deployment)], d.network_name = "testnet" ∧
      BaseStarknetAccount.contract_address (fun x => x)
          [⟨"testnet", "0xAB"⟩] "testnet" =
        Except.ok ((fun x => x) d.contract_address) :=
  (contract_address_spec (fun x => x) [⟨"testnet", "0xAB"⟩] "testnet").1
    ⟨⟨"testnet", "0xAB"⟩, by decide, rfl⟩

/-- C5 counterexample: deleting "bob"'s only deployment removes the
credential file, but the registry cached the account while deleting and the
cache is not invalidated, so a subsequent `load` of the alias succeeds with
the stale cached entry instead of failing with a not-found error. -/
theorem delete_then_load_uses_stale_cache :
    StarknetAccountContracts.delete_account
        ⟨[], [("bob", ⟨some ⟨5, "p"⟩, some 5, some [⟨"testnet", "0xAB"⟩]⟩)], []⟩
        "bob" "testnet" "p" =
      Except.ok ⟨[], [], ["bob"]⟩ ∧
    StarknetAccountContracts.load ⟨[], [], ["bob"]⟩ "bob" =
      Except.ok (⟨[], [], ["bob"]⟩, "bob") := by
  refine ⟨rfl, rfl⟩

/-- C5 amended: `delete(network)` removes the deployment records whose
`network_name` is a substring of `network`; when none remain the credential
file is removed, otherwise it is rewritten containing exactly the reduced
deployment list.  A subsequent load fails with a not-found error only from a
registry state in which the alias is neither cached nor present on disk; the
in-memory cache is not invalidated by deletion (the alias is cached after the
delete), so a cached entry is still returned. -/
theorem delete_account_spec (reg : StarknetAccountContracts) (a network pass : String)
    (file : FileData) (ds : List Deployment) (key : Nat)
    (heph : alistLookup reg.ephemeral_accounts a = none)
    (hkf : alistLookup reg.keyfiles a = some file)
    (hds : file.deployments = some ds)
    (hkey : decryptField file.crypto pass = some key) :
    (∃ reg1, StarknetAccountContracts.delete_account reg a network pass =
        Except.ok reg1 ∧
      a ∈ reg1.cached_accounts ∧
      ((ds.filter fun d => !(strContains network d.network_name)) = [] →
        alistLookup reg1.keyfiles a = none) ∧
      ((ds.filter fun d => !(strContains network d.network_name)) ≠ [] →
        alistLookup reg1.keyfiles a =
          some (StarknetKeyfileAccount.write (some file) pass key
            (some (ds.filter fun d => !(strContains network d.network_name)))))) ∧
    (∀ r : StarknetAccountContracts, a ∉ r.cached_accounts →
      alistLookup r.keyfiles a = none →
      StarknetAccountContracts.load_key_file_account r a =
        Except.error AccountsError.notFound) := by
  constructor
  · have hsome : (alistLookup reg.keyfiles a).isSome = true := by
      rw [hkf]
      rfl
    obtain ⟨reg1, hload, hkeys, _heph1, hcached⟩ := load_key_file_account_found reg a hsome
    have hkf1 : alistLookup reg1.keyfiles a = some file := by rw [hkeys, hkf]
    have hdel : StarknetKeyfileAccount.delete file pass network =
        some (if (ds.filter fun d => !(strContains network d.network_name)) = [] then none
          else some (StarknetKeyfileAccount.write (some file) pass key
            (some (ds.filter fun d => !(strContains network d.network_name))))) := by
      unfold StarknetKeyfileAccount.delete
      rw [hkey, hds]
      rfl
    by_cases hrem : (ds.filter fun d => !(strContains network d.network_name)) = []
    · refine ⟨{ reg1 with keyfiles := reg1.keyfiles.filter fun p => !(p.1 == a) }, ?_, hcached, ?_, ?_⟩
      · unfold StarknetAccountContracts.delete_account
        rw [heph, hload]
        simp [hkf1, hdel, hrem]
      · intro _
        exact alistLookup_filterOut a reg1.keyfiles
      · intro hne
        exact absurd hrem hne
    · refine ⟨{ reg1 with keyfiles := alistInsert a (StarknetKeyfileAccount.write (some file) pass key (some (ds.filter fun d => !(strContains network d.network_name)))) reg1.keyfiles }, ?_, hcached, ?_, ?_⟩
      · unfold StarknetAccountContracts.delete_account
        rw [heph, hload]
        simp [hkf1, hdel, hrem]
      · intro h
        exact absurd h hrem
      · intro _
        exact alistLookup_insert_self a _ reg1.keyfiles
  · intro r hc hn
    unfold StarknetAccountContracts.load_key_file_account
    rw [hn]
    simp [hc]

/-- C5 witness: "bob" has deployments on "testnet" and "mainnet"; deleting
"testnet" leaves a rewritten credential file with exactly the "mainnet"
record, and a fresh (uncached, fileless) registry fails with not-found. -/
theorem delete_account_spec_witness :
    (∃ reg1, StarknetAccountContracts.delete_account
        ⟨[], [("bob", ⟨some ⟨5, "p"⟩, some 5,
          some [⟨"testnet", "0xAB"⟩, ⟨"mainnet", "0xCD"⟩]⟩)], []⟩
        "bob" "testnet" "p" = Except.ok reg1 ∧
      "bob" ∈ reg1.cached_accounts ∧
      ((([⟨"testnet", "0xAB"⟩, ⟨"mainnet", "0xCD"⟩] : List Deployment).filter
          fun d => !(strContains "testnet" d.network_name)) = [] →
        alistLookup reg1.keyfiles "bob" = none) ∧
      ((([⟨"testnet", "0xAB"⟩, ⟨"mainnet", "0xCD"⟩] : List Deployment).filter
          fun d => !(strContains "testnet" d.network_name)) ≠ [] →
        alistLookup reg1.keyfiles "bob" =
          some (StarknetKeyfileAccount.write
            (some ⟨some ⟨5, "p"⟩, some 5,
              some [⟨"testnet", "0xAB"⟩, ⟨"mainnet", "0xCD"⟩]⟩) "p" 5
            (some (([⟨"testnet", "0xAB"⟩, ⟨"mainnet", "0xCD"⟩] : List Deployment).filter
              fun d => !(strContains "testnet" d.network_name)))))) ∧
    (∀ r : StarknetAccountContracts, "bob" ∉ r.cached_accounts →
      alistLookup r.keyfiles "bob" = none →
      StarknetAccountContracts.load_key_file_account r "bob" =
        Except.error AccountsError.notFound) :=
  delete_account_spec
    ⟨[], [("bob", ⟨some ⟨5, "p"⟩, some 5,
      some [⟨"testnet", "0xAB"⟩, ⟨"mainnet", "0xCD"⟩]⟩)], []⟩
    "bob" "testnet" "p"
    ⟨some ⟨5, "p"⟩, some 5, some [⟨"testnet", "0xAB"⟩, ⟨"mainnet", "0xCD"⟩]⟩
    [⟨"testnet", "0xAB"⟩, ⟨"mainnet", "0xCD"⟩] 5
    (by decide) (by decide) (by decide) (by decide)
